import Mathlib

/-!
Verification of the `llm_queue` request-admission engine.

The definitions below are a shallow embedding of the Python sources:
  * `src/llm_queue/rate_limiters/token_limiter.py`
  * `src/llm_queue/rate_limiters/request_limiter.py`
  * `src/llm_queue/rate_limiters/concurrent_limiter.py`
  * `src/llm_queue/rate_limiters/chain.py`
  * `src/llm_queue/rate_limiters/factory.py`
  * `src/llm_queue/models.py`
  * `src/llm_queue/queue.py`
  * `src/llm_queue/manager.py`

Wall-clock timestamps (`time.time()`) are modelled as integers, token
counts and limits as integers: the engine uses time only through
subtraction and order comparison, which the embedding preserves.  Mutation of limiter / queue state is
modelled by explicit state passing: every method of the source that
mutates `self` becomes a function returning the new state.
-/

namespace LlmQueue

/-- `RateLimiterType` from `models.py`. -/
inductive RateLimiterType
  | rpm
  | rpd
  | tpm
  | tpd
  | itpm
  | otpm
  | concurrent
  deriving DecidableEq

/-- `RequestStatus` from `models.py`. -/
inductive RequestStatus
  | pending
  | processing
  | completed
  | failed
  deriving DecidableEq

/-- `QueueRequest` from `models.py` (the fields the engine reads or writes;
`params` is the opaque client payload of type `P`, `metadata` is never read
by the engine and is omitted). -/
structure QueueRequest (P : Type) where
  id : String
  model_id : String
  params : P
  wait_for_completion : Bool
  created_at : Int
  status : RequestStatus
  error : Option String
  estimated_input_tokens : Option Int
  estimated_output_tokens : Option Int
  actual_input_tokens : Option Int
  actual_output_tokens : Option Int
  deriving DecidableEq

/-- `QueueResponse` from `models.py`. -/
structure QueueResponse (T : Type) where
  request_id : String
  model_id : String
  status : RequestStatus
  result : Option T
  error : Option String
  processing_time : Option Int
  created_at : Int
  input_tokens_used : Option Int
  output_tokens_used : Option Int
  deriving DecidableEq

/-- State of `TokenRateLimiter` (`token_limiter.py`): a limit, a window
length in seconds, and the signed ledger `usage_history` of
`(timestamp, token_count)` entries. -/
structure TokenRateLimiter where
  limit : Int
  time_period : Int
  usage_history : List (Int × Int)
  deriving DecidableEq

namespace TokenRateLimiter

/-- `TokenRateLimiter._cleanup`: drop entries with `now - t >= time_period`. -/
def cleanup (l : TokenRateLimiter) (now : Int) : TokenRateLimiter :=
  { l with usage_history :=
      l.usage_history.filter (fun e => decide (now - e.1 < l.time_period)) }

/-- `TokenRateLimiter.acquire`: cleanup, sum the (signed) remaining entries,
admit by appending `(now, tokens)` when `current_usage + tokens <= limit`. -/
def acquire (l : TokenRateLimiter) (now : Int) (tokens : Int) :
    Bool × TokenRateLimiter :=
  let l1 := l.cleanup now
  let current_usage := (l1.usage_history.map Prod.snd).sum
  if current_usage + tokens ≤ l1.limit then
    (true, { l1 with usage_history := l1.usage_history ++ [(now, tokens)] })
  else
    (false, l1)

/-- `TokenRateLimiter.release`: append a dated negative entry `(now, -tokens)`. -/
def release (l : TokenRateLimiter) (now : Int) (tokens : Int) : TokenRateLimiter :=
  { l with usage_history := l.usage_history ++ [(now, -tokens)] }

/-- `TokenRateLimiter.get_current_usage`: clamped signed sum over the
non-expired entries. -/
def get_current_usage (l : TokenRateLimiter) (now : Int) : Int :=
  max 0 (((l.usage_history.filter
    (fun e => decide (now - e.1 < l.time_period))).map Prod.snd).sum)

/-- `TokenRateLimiter.get_available_capacity`. -/
def get_available_capacity (l : TokenRateLimiter) (now : Int) : Int :=
  max 0 (l.limit - l.get_current_usage now)

end TokenRateLimiter

/-- State of `RequestRateLimiter` (`request_limiter.py`): a limit, a window
length, and the list of admission timestamps. -/
structure RequestRateLimiter where
  limit : Int
  time_period : Int
  timestamps : List Int
  deriving DecidableEq

namespace RequestRateLimiter

/-- `RequestRateLimiter._cleanup`. -/
def cleanup (l : RequestRateLimiter) (now : Int) : RequestRateLimiter :=
  { l with timestamps :=
      l.timestamps.filter (fun t => decide (now - t < l.time_period)) }

/-- `RequestRateLimiter.acquire`: cleanup, admit when
`len(timestamps) + tokens <= limit` by appending `tokens` copies of `now`
(the `for _ in range(tokens)` loop runs `max tokens 0` times). -/
def acquire (l : RequestRateLimiter) (now : Int) (tokens : Int) :
    Bool × RequestRateLimiter :=
  let l1 := l.cleanup now
  if (l1.timestamps.length : Int) + tokens ≤ l1.limit then
    (true, { l1 with timestamps := l1.timestamps ++ List.replicate tokens.toNat now })
  else
    (false, l1)

/-- `RequestRateLimiter.release`: pop the `min tokens len` most recent
timestamps. -/
def release (l : RequestRateLimiter) (tokens : Int) : RequestRateLimiter :=
  { l with timestamps :=
      l.timestamps.take (l.timestamps.length - min tokens.toNat l.timestamps.length) }

/-- `RequestRateLimiter.get_current_usage`: count of non-expired timestamps. -/
def get_current_usage (l : RequestRateLimiter) (now : Int) : Int :=
  ((l.timestamps.filter (fun t => decide (now - t < l.time_period))).length : Int)

/-- `RequestRateLimiter.get_available_capacity`. -/
def get_available_capacity (l : RequestRateLimiter) (now : Int) : Int :=
  max 0 (l.limit - l.get_current_usage now)

end RequestRateLimiter

/-- State of `ConcurrentRateLimiter` (`concurrent_limiter.py`): the capacity
and the underlying semaphore counter `_value` (initially `limit`). -/
structure ConcurrentRateLimiter where
  limit : Int
  value : Int
  deriving DecidableEq

namespace ConcurrentRateLimiter

/-- `ConcurrentRateLimiter.acquire`: refuse when `_value < tokens`, otherwise
decrement the counter `tokens` times (the loop runs `max tokens 0` times). -/
def acquire (l : ConcurrentRateLimiter) (tokens : Int) :
    Bool × ConcurrentRateLimiter :=
  if l.value < tokens then
    (false, l)
  else
    (true, { l with value := l.value - max tokens 0 })

/-- `ConcurrentRateLimiter.release`: increment the counter `tokens` times. -/
def release (l : ConcurrentRateLimiter) (tokens : Int) : ConcurrentRateLimiter :=
  { l with value := l.value + max tokens 0 }

/-- `ConcurrentRateLimiter.get_current_usage`. -/
def get_current_usage (l : ConcurrentRateLimiter) : Int :=
  max 0 (l.limit - l.value)

/-- `ConcurrentRateLimiter.get_available_capacity`. -/
def get_available_capacity (l : ConcurrentRateLimiter) : Int :=
  l.value

end ConcurrentRateLimiter

/-- A limiter in a chain: one of the three limiter classes, together with the
`rate_limiter_type` attribute the factory attaches via `setattr` (`None`
when the attribute is absent, as `getattr(limiter, "rate_limiter_type",
None)` reads it). -/
inductive Limiter
  | request (rate_limiter_type : Option RateLimiterType) (s : RequestRateLimiter)
  | token (rate_limiter_type : Option RateLimiterType) (s : TokenRateLimiter)
  | concurrent (rate_limiter_type : Option RateLimiterType) (s : ConcurrentRateLimiter)
  deriving DecidableEq

namespace Limiter

/-- The `rate_limiter_type` attribute of a limiter. -/
def rate_limiter_type : Limiter → Option RateLimiterType
  | .request ty _ => ty
  | .token ty _ => ty
  | .concurrent ty _ => ty

/-- Dynamic dispatch of `acquire` over the three limiter classes. -/
def acquire (l : Limiter) (now : Int) (tokens : Int) : Bool × Limiter :=
  match l with
  | .request ty s =>
    let r := s.acquire now tokens
    (r.1, .request ty r.2)
  | .token ty s =>
    let r := s.acquire now tokens
    (r.1, .token ty r.2)
  | .concurrent ty s =>
    let r := s.acquire tokens
    (r.1, .concurrent ty r.2)

/-- Dynamic dispatch of `release` over the three limiter classes. -/
def release (l : Limiter) (now : Int) (tokens : Int) : Limiter :=
  match l with
  | .request ty s => .request ty (s.release tokens)
  | .token ty s => .token ty (s.release now tokens)
  | .concurrent ty s => .concurrent ty (s.release tokens)

/-- Dynamic dispatch of `get_current_usage`. -/
def get_current_usage (l : Limiter) (now : Int) : Int :=
  match l with
  | .request _ s => s.get_current_usage now
  | .token _ s => s.get_current_usage now
  | .concurrent _ s => s.get_current_usage

/-- Dynamic dispatch of `get_available_capacity`. -/
def get_available_capacity (l : Limiter) (now : Int) : Int :=
  match l with
  | .request _ s => s.get_available_capacity now
  | .token _ s => s.get_available_capacity now
  | .concurrent _ s => s.get_available_capacity

/-- `isinstance(limiter, ConcurrentRateLimiter)`. -/
def isConcurrentInstance : Limiter → Bool
  | .concurrent _ _ => true
  | _ => false

/-- `isinstance(limiter, TokenRateLimiter)`. -/
def isTokenInstance : Limiter → Bool
  | .token _ _ => true
  | _ => false

/-- The `limit` attribute of a limiter (`getattr(limiter, "limit", 0)`). -/
def limit : Limiter → Int
  | .request _ s => s.limit
  | .token _ s => s.limit
  | .concurrent _ s => s.limit

/-- Well-formedness as guaranteed by `factory.create_rate_limiter`: the
attached `rate_limiter_type` matches the constructed limiter class. -/
def wf : Limiter → Prop
  | .request ty _ => ty = some .rpm ∨ ty = some .rpd
  | .token ty _ => ty = some .tpm ∨ ty = some .tpd ∨ ty = some .itpm ∨ ty = some .otpm
  | .concurrent ty _ => ty = some .concurrent

instance (l : Limiter) : Decidable l.wf := by
  cases l <;> simp only [wf] <;> infer_instance

end Limiter

namespace RateLimiterChain

/-- `RateLimiterChain._get_tokens_for_limiter`: the per-limiter cost of a
request (`request.estimated_input_tokens or 0` yields `0` both for `None`
and for `0`, so `Option.getD 0` models it exactly). -/
def get_tokens_for_limiter (l : Limiter) (req : QueueRequest P) : Int :=
  match l.rate_limiter_type with
  | none => 1
  | some t =>
    match t with
    | .rpm | .rpd | .concurrent => 1
    | .tpm | .tpd => req.estimated_input_tokens.getD 0 + req.estimated_output_tokens.getD 0
    | .itpm => req.estimated_input_tokens.getD 0
    | .otpm => req.estimated_output_tokens.getD 0

/-- `RateLimiterChain.acquire_all`: acquire the limiters in list order with
their computed costs; on the first refusal, release every already-acquired
limiter (the source walks the acquired list in reverse; the limiters are
disjoint pieces of state, so releasing them is order-independent) and
report refusal.  The refusing limiter keeps the state its own `acquire`
left (its cleanup ran); limiters after it are untouched. -/
def acquire_all (now : Int) (req : QueueRequest P) : List Limiter → Bool × List Limiter
  | [] => (true, [])
  | l :: rest =>
    let tokens := get_tokens_for_limiter l req
    let r := l.acquire now tokens
    if r.1 then
      match acquire_all now req rest with
      | (true, rest1) => (true, r.2 :: rest1)
      | (false, rest1) => (false, r.2.release now tokens :: rest1)
    else
      (false, r.2 :: rest)

/-- `RateLimiterChain.release_all`: release only the limiters that are
`ConcurrentRateLimiter` instances, each with its computed cost. -/
def release_all (now : Int) (req : QueueRequest P) (chain : List Limiter) : List Limiter :=
  chain.map fun l =>
    if l.isConcurrentInstance then l.release now (get_tokens_for_limiter l req) else l

/-- One successful pass of `RateLimiterChain.wait_for_all` at the instant
`now`: each limiter's `wait_for_slot` polls `acquire` until it succeeds and
returns exactly when an `acquire` call succeeds, so the state in which the
worker proceeds is the one in which every limiter admitted its cost in list
order.  `none` models the worker still blocked in `wait_for_all` (some
limiter refuses at this instant). -/
def wait_for_all_now (now : Int) (req : QueueRequest P) :
    List Limiter → Option (List Limiter)
  | [] => some []
  | l :: rest =>
    let r := l.acquire now (get_tokens_for_limiter l req)
    if r.1 then (wait_for_all_now now req rest).map (r.2 :: ·) else none

/-- `RateLimiterChain.update_token_usage`: for each `TokenRateLimiter` in the
chain whose `rate_limiter_type` is a token kind, compute the estimated and
actual amounts per kind and apply `release` (over-estimate) or `acquire`
(under-estimate, return value ignored). -/
def update_token_usage (chain : List Limiter) (now : Int) (req : QueueRequest P)
    (actual_input actual_output : Int) : List Limiter :=
  let est_input := req.estimated_input_tokens.getD 0
  let est_output := req.estimated_output_tokens.getD 0
  chain.map fun l =>
    match l with
    | .token ty s =>
      match ty with
      | none => .token ty s
      | some t =>
        let ea : Option (Int × Int) :=
          match t with
          | .tpm | .tpd => some (est_input + est_output, actual_input + actual_output)
          | .itpm => some (est_input, actual_input)
          | .otpm => some (est_output, actual_output)
          | _ => none
        match ea with
        | none => .token ty s
        | some (estimated, actual) =>
          let diff := estimated - actual
          if 0 < diff then .token ty (s.release now diff)
          else if diff < 0 then .token ty (s.acquire now (-diff)).2
          else .token ty s
    | other => other

end RateLimiterChain

/-- `RateLimiterConfig` from `models.py` (pydantic model). -/
structure RateLimiterConfig where
  type : RateLimiterType
  limit : Int
  time_period : Option Int
  deriving DecidableEq

/-- The pydantic field constraints of `RateLimiterConfig`:
`limit` has `gt=0` and `time_period` has `gt=0` when present. -/
def RateLimiterConfig.field_valid (c : RateLimiterConfig) : Bool :=
  decide (0 < c.limit) &&
    (match c.time_period with
     | none => true
     | some t => decide (0 < t))

/-- `ModelConfig` from `models.py` (the fields `register_queue` and
validation read; the legacy `rate_limiter_mode` is only consumed by the
legacy `Queue` constructor path, which `register_queue` never takes). -/
structure ModelConfig where
  model_id : String
  rate_limiters : List RateLimiterConfig
  rate_limit : Option Int
  time_period : Int
  deriving DecidableEq

/-- The pydantic field constraints of `ModelConfig`: every nested
`RateLimiterConfig` is field-valid, `rate_limit` has `gt=0` when present,
and `time_period` has `gt=0`. -/
def ModelConfig.field_valid (c : ModelConfig) : Bool :=
  c.rate_limiters.all RateLimiterConfig.field_valid &&
    (match c.rate_limit with
     | none => true
     | some r => decide (0 < r)) &&
    decide (0 < c.time_period)

/-- `ModelConfig.validate_config` (the `model_validator`): reject only when
both the v2 limiter list is empty and the legacy v1 `rate_limit` is absent. -/
def ModelConfig.validate_config (c : ModelConfig) : Except String ModelConfig :=
  if c.rate_limiters.isEmpty && c.rate_limit.isNone then
    .error "Either rate_limiters v2 or rate_limit v1 must be provided"
  else
    .ok c

/-- Constructing a `ModelConfig` value through pydantic: field constraints
first, then the model validator. -/
def ModelConfig.construct (c : ModelConfig) : Except String ModelConfig :=
  if c.field_valid then c.validate_config
  else .error "field validation failed"

/-- `factory.create_rate_limiter`: build the limiter class for the kind,
filling in the default window lengths, and attach the kind as
`rate_limiter_type`. -/
def create_rate_limiter (c : RateLimiterConfig) : Limiter :=
  match c.type with
  | .rpm | .rpd =>
    let tp := c.time_period.getD (if c.type = .rpm then 60 else 86400)
    .request (some c.type) { limit := c.limit, time_period := tp, timestamps := [] }
  | .concurrent =>
    .concurrent (some c.type) { limit := c.limit, value := c.limit }
  | .tpm | .tpd | .itpm | .otpm =>
    let tp := c.time_period.getD (if c.type = .tpd then 86400 else 60)
    .token (some c.type) { limit := c.limit, time_period := tp, usage_history := [] }

/-- `factory.create_chain`. -/
def create_chain (configs : List RateLimiterConfig) : List Limiter :=
  configs.map create_rate_limiter

/-- Python `dict` assignment `d[k] = v` on an insertion-ordered association
list: overwrite in place when the key exists, append otherwise. -/
def dict_set (m : List (String × A)) (k : String) (v : A) : List (String × A) :=
  if m.any (fun kv => kv.1 == k) then
    m.map (fun kv => if kv.1 == k then (k, v) else kv)
  else
    m ++ [(k, v)]

/-- Python `dict.get` on an insertion-ordered association list. -/
def dict_get (m : List (String × A)) (k : String) : Option A :=
  (m.find? (fun kv => kv.1 == k)).map Prod.snd

/-- Python `del d[k]` guarded by `if k in d` on an association list. -/
def dict_del (m : List (String × A)) (k : String) : List (String × A) :=
  m.filter (fun kv => kv.1 != k)

/-- In-place mutation of an object stored in a dict: the entry under `k`, if
any, now shows the updated object; a dict without the key is unchanged. -/
def dict_set_existing (m : List (String × A)) (k : String) (v : A) :
    List (String × A) :=
  m.map (fun kv => if kv.1 == k then (k, v) else kv)

/-- State of a `Queue` (`queue.py`): the active table `requests`, the
bounded `completed_requests` history, the FIFO of pending submissions, the
limiter chain, and the history cap. -/
structure QueueState (P T : Type) where
  requests : List (String × QueueRequest P)
  completed_requests : List (String × QueueRequest P)
  fifo : List (QueueRequest P)
  chain : List Limiter
  max_completed_history : Nat
  deriving DecidableEq

namespace Queue

/-- `Queue` construction as `register_queue` performs it: empty tables and
FIFO, the given chain, history cap 1000. -/
def new (chain : List Limiter) : QueueState P T :=
  { requests := []
    completed_requests := []
    fifo := []
    chain := chain
    max_completed_history := 1000 }

/-- `Queue._cleanup_history`: when the completion table exceeds the cap,
evict the oldest `cap / 10` entries. -/
def cleanup_history (maxH : Nat) (completed : List (String × QueueRequest P)) :
    List (String × QueueRequest P) :=
  if maxH < completed.length then completed.drop (maxH / 10) else completed

/-- What `enqueue` hands back to the caller: an immediate `PENDING` response,
or the value of the awaited future. -/
inductive EnqueueReturn (T : Type)
  | immediate (r : QueueResponse T)
  | awaited
  deriving DecidableEq

/-- The `PENDING` response `enqueue` builds when `wait_for_completion` is
false (token-usage fields left at their defaults). -/
def pending_response (req : QueueRequest P) : QueueResponse T :=
  { request_id := req.id
    model_id := req.model_id
    status := .pending
    result := none
    error := none
    processing_time := none
    created_at := req.created_at
    input_tokens_used := none
    output_tokens_used := none }

/-- `Queue.enqueue`: insert the request into the active table, put it on the
FIFO with a fresh future, and either return the `PENDING` response
immediately or await the future. -/
def enqueue (s : QueueState P T) (req : QueueRequest P) :
    QueueState P T × EnqueueReturn T :=
  let s1 := { s with
    requests := dict_set s.requests req.id req
    fifo := s.fifo ++ [req] }
  if req.wait_for_completion then (s1, .awaited)
  else (s1, .immediate (pending_response req))

/-- The behaviour of one `processor_func` invocation: it returns a value or
raises an exception carrying a message. -/
inductive Outcome (T : Type)
  | ok (t : T)
  | error (msg : String)
  deriving DecidableEq

/-- One FIFO item as the worker sees it: the request, what the processor
will do with it, whether the caller has cancelled the future, and the
measured `time.time() - start_time`. -/
structure WorkerItem (P T : Type) where
  request : QueueRequest P
  outcome : Outcome T
  cancelled : Bool
  proc_time : Int
  deriving DecidableEq

/-- The `try/except` around the processor call in `Queue._process_queue`:
on success set `COMPLETED` and keep the result, on a raised exception set
`error` to the exception message, `result` to `None` and the status to
`FAILED`. -/
def run_processor (req : QueueRequest P) (outcome : Outcome T) :
    QueueRequest P × Option T :=
  match outcome with
  | .ok t => ({ req with status := .completed }, some t)
  | .error msg => ({ req with status := .failed, error := some msg }, none)

/-- One iteration of the worker loop in `Queue._process_queue` on a dequeued
item, at the instant `now`: block in `wait_for_all` (`none` when some
limiter refuses at this instant), mark `PROCESSING`, run the processor,
release the concurrent limiters in the `finally`, build the response,
resolve the future unless cancelled, and move the request from the active
table to the (trimmed) completion table.  Returns the new queue state, the
built response, and the value the future was resolved with. -/
def process_one (s : QueueState P T) (now : Int) (it : WorkerItem P T) :
    Option (QueueState P T × QueueResponse T × Option (QueueResponse T)) :=
  (RateLimiterChain.wait_for_all_now now it.request s.chain).map fun chainA =>
    let req1 := { it.request with status := RequestStatus.processing }
    let pr := run_processor req1 it.outcome
    let req2 := pr.1
    let chainR := RateLimiterChain.release_all now req2 chainA
    let response : QueueResponse T :=
      { request_id := req2.id
        model_id := req2.model_id
        status := req2.status
        result := pr.2
        error := req2.error
        processing_time := some it.proc_time
        created_at := req2.created_at
        input_tokens_used := req2.actual_input_tokens
        output_tokens_used := req2.actual_output_tokens }
    let resolved := if it.cancelled then none else some response
    let s1 := { s with
      chain := chainR
      requests := dict_del s.requests req2.id
      completed_requests :=
        cleanup_history s.max_completed_history
          (dict_set s.completed_requests req2.id req2) }
    (s1, response, resolved)

/-- The worker loop over a list of dequeued items: process each in turn;
when `wait_for_all` blocks (no capacity at this instant) no further item is
reached. -/
def process_all (now : Int) :
    List (WorkerItem P T) → QueueState P T →
      QueueState P T × List (QueueResponse T × Option (QueueResponse T))
  | [], s => (s, [])
  | it :: rest, s =>
    match process_one s now it with
    | none => (s, [])
    | some (s1, resp, res) =>
      let r := process_all now rest s1
      (r.1, (resp, res) :: r.2)

/-- `Queue.update_token_usage`: look the request up in the active table,
then in the completion table; if absent, no-op.  Otherwise write the actual
token counts on the request object (the same object lives in whichever
table holds it) and delegate to the chain. -/
def update_token_usage (s : QueueState P T) (now : Int) (request_id : String)
    (input_tokens output_tokens : Int) : QueueState P T :=
  match (dict_get s.requests request_id).orElse
      (fun _ => dict_get s.completed_requests request_id) with
  | none => s
  | some req =>
    let req1 := { req with
      actual_input_tokens := some input_tokens
      actual_output_tokens := some output_tokens }
    { s with
      requests := dict_set_existing s.requests request_id req1
      completed_requests := dict_set_existing s.completed_requests request_id req1
      chain := RateLimiterChain.update_token_usage s.chain now req1
        input_tokens output_tokens }

/-- `Queue.get_rate_limiter_usage`: the usage of the first limiter in the
chain, `0` for an empty chain. -/
def get_rate_limiter_usage (chain : List Limiter) (now : Int) : Int :=
  match chain with
  | [] => 0
  | l :: _ => l.get_current_usage now

end Queue

namespace QueueManager

/-- `QueueManager.register_queue`: reject an already-registered `model_id`,
otherwise build the chain from the v2 limiter configs and install a fresh
queue. -/
def register_queue (queues : List (String × QueueState P T)) (cfg : ModelConfig) :
    Except String (List (String × QueueState P T)) :=
  if queues.any (fun kv => kv.1 == cfg.model_id) then
    .error "Model is already registered"
  else
    .ok (queues ++ [(cfg.model_id, Queue.new (create_chain cfg.rate_limiters))])

/-- Registration as a client performs it: construct (and thereby validate)
the `ModelConfig`, then `register_queue`. -/
def register_model (queues : List (String × QueueState P T)) (cfg : ModelConfig) :
    Except String (List (String × QueueState P T)) :=
  (cfg.construct).bind (register_queue queues)

/-- One row of the `rate_limiters` list in `get_queue_info`. -/
structure LimiterInfo where
  type : Option RateLimiterType
  usage : Int
  limit : Int
  available : Int
  deriving DecidableEq

/-- The dictionary `get_queue_info` returns. -/
structure QueueInfo where
  model_id : String
  queue_size : Nat
  rate_limiter_usage : Int
  rate_limiters : List LimiterInfo
  deriving DecidableEq

/-- The per-limiter row built inside `get_queue_info`. -/
def limiter_info (now : Int) (l : Limiter) : LimiterInfo :=
  { type := l.rate_limiter_type
    usage := l.get_current_usage now
    limit := l.limit
    available := l.get_available_capacity now }

/-- `QueueManager.get_queue_info`: error for an unknown model, otherwise the
queue size, the scalar `rate_limiter_usage` from
`Queue.get_rate_limiter_usage`, and one detail row per limiter. -/
def get_queue_info (queues : List (String × QueueState P T)) (model_id : String)
    (now : Int) : Except String QueueInfo :=
  match dict_get queues model_id with
  | none => .error "Model is not registered"
  | some q =>
    .ok
      { model_id := model_id
        queue_size := q.fifo.length
        rate_limiter_usage := Queue.get_rate_limiter_usage q.chain now
        rate_limiters := q.chain.map (limiter_info now) }

end QueueManager

/-- `Queue.enqueue` composed with the worker and the future, as the caller
of `submit_request` observes it: enqueue the request; a fire-and-forget
caller gets the immediate `PENDING` response, a waiting caller gets the
value the worker resolves the item's future with (`none` while the worker
is still blocked on admission).  A caller that is awaiting the future has
not cancelled it. -/
def submit_and_run (s : QueueState P T) (req : QueueRequest P)
    (outcome : Queue.Outcome T) (now proc_time : Int) : Option (QueueResponse T) :=
  let er := Queue.enqueue s req
  match er.2 with
  | .immediate r => some r
  | .awaited =>
    (Queue.process_one er.1 now
      { request := req, outcome := outcome, cancelled := false,
        proc_time := proc_time }).bind
      (fun out => out.2.2)

/-- Whether an `Except` result is a success. -/
def exceptOk (r : Except String A) : Bool :=
  match r with
  | .ok _ => true
  | .error _ => false

/-! ### Concrete states used by witnesses and counterexamples -/

/-- A request with estimates 80 in / 0 out (scenario 4 and 5 of the spec). -/
def reqEst80 : QueueRequest Unit :=
  { id := "r1", model_id := "m", params := (), wait_for_completion := true,
    created_at := 0, status := .pending, error := none,
    estimated_input_tokens := some 80, estimated_output_tokens := some 0,
    actual_input_tokens := none, actual_output_tokens := none }

/-- A request with estimates 50 in / 0 out (scenario 3 of the spec). -/
def reqEst50 : QueueRequest Unit :=
  { reqEst80 with id := "r2", estimated_input_tokens := some 50 }

/-- A fire-and-forget request. -/
def reqNoWait : QueueRequest Unit :=
  { reqEst80 with id := "r3", wait_for_completion := false }

/-- A TPM limiter of limit 100 / period 60 carrying one 80-token admission
at time 0. -/
def tpm80 : TokenRateLimiter := { limit := 100, time_period := 60, usage_history := [(0, 80)] }

/-- The chain of scenario 3: RPM 10/60 with one admission, TPM 60/60 with 50
tokens drawn. -/
def chainRpmTpm : List Limiter :=
  [.request (some .rpm) { limit := 10, time_period := 60, timestamps := [0] },
   .token (some .tpm) { limit := 60, time_period := 60, usage_history := [(0, 50)] }]

/-- A chain holding one concurrency limiter of capacity 2, both permits free. -/
def chainConc : List Limiter :=
  [.concurrent (some .concurrent) { limit := 2, value := 2 }]

/-- A queue whose completion table holds `reqEst80` and whose chain is the
single TPM limiter `tpm80`. -/
def stateTpm80 : QueueState Unit Unit :=
  { requests := [], completed_requests := [("r1", reqEst80)], fifo := [],
    chain := [.token (some .tpm) tpm80], max_completed_history := 1000 }

/-- A fresh queue over the concurrency chain. -/
def stateConc : QueueState Unit Unit := Queue.new chainConc

/-- A worker item whose processor raises `boom`. -/
def itemBoom : Queue.WorkerItem Unit Unit :=
  { request := reqEst80, outcome := .error "boom", cancelled := false, proc_time := 1 }

/-- A worker item whose processor succeeds. -/
def itemOk : Queue.WorkerItem Unit Unit :=
  { request := reqEst50, outcome := .ok (), cancelled := false, proc_time := 1 }

/-- A legacy-style model configuration: no v2 limiters, `rate_limit=10`. -/
def cfgLegacy : ModelConfig :=
  { model_id := "m", rate_limiters := [], rate_limit := some 10, time_period := 60 }

/-- A configuration with neither v2 limiters nor a legacy rate limit. -/
def cfgEmptyNone : ModelConfig :=
  { model_id := "m", rate_limiters := [], rate_limit := none, time_period := 60 }

/-- A configuration holding one limiter with non-positive limit. -/
def cfgBadLimit : ModelConfig :=
  { model_id := "m", rate_limiters := [{ type := .rpm, limit := 0, time_period := none }],
    rate_limit := none, time_period := 60 }

/-- The request `reqEst80` after the worker recorded the `boom` failure. -/
def reqBoomDone : QueueRequest Unit :=
  { reqEst80 with status := .failed, error := some "boom" }

/-- The FAILED response the worker builds for `itemBoom` on `stateConc`. -/
def respBoom : QueueResponse Unit :=
  { request_id := "r1", model_id := "m", status := .failed, result := none,
    error := some "boom", processing_time := some 1, created_at := 0,
    input_tokens_used := none, output_tokens_used := none }

/-- The queue state after the worker processed `itemBoom` on `stateConc`. -/
def stateAfterBoom : QueueState Unit Unit :=
  { requests := [], completed_requests := [("r1", reqBoomDone)], fifo := [],
    chain := [.concurrent (some .concurrent) { limit := 2, value := 2 }],
    max_completed_history := 1000 }

/-- A mixed chain: one concurrency limiter with one permit taken, one token
limiter. -/
def chainCT : List Limiter :=
  [.concurrent (some .concurrent) { limit := 2, value := 1 },
   .token (some .tpm) tpm80]

/-! ### Helper lemmas: usage bookkeeping of the three limiter classes -/

/-- Cleanup never changes the reported usage of a token limiter: expired
entries are already invisible to `get_current_usage`. -/
theorem TokenRateLimiter.token_usage_cleanup (l : TokenRateLimiter) (now : Int) :
    (l.cleanup now).get_current_usage now = l.get_current_usage now := by
  simp [TokenRateLimiter.cleanup, TokenRateLimiter.get_current_usage,
    List.filter_filter, Bool.and_self]

/-- A refused token `acquire` leaves the state cleaned but nothing else. -/
theorem TokenRateLimiter.token_acquire_snd_of_false (l : TokenRateLimiter) (now : Int)
    (n : Int) (h : (l.acquire now n).1 = false) :
    (l.acquire now n).2 = l.cleanup now := by
  by_cases hc : (((l.cleanup now).usage_history.map Prod.snd).sum + n
      ≤ (l.cleanup now).limit)
  · simp [TokenRateLimiter.acquire, hc] at h
  · simp [TokenRateLimiter.acquire, hc]

/-- A successful token `acquire` appends `(now, n)` to the cleaned ledger. -/
theorem TokenRateLimiter.token_acquire_snd_of_true (l : TokenRateLimiter) (now : Int)
    (n : Int) (h : (l.acquire now n).1 = true) :
    (l.acquire now n).2 =
      { l.cleanup now with
        usage_history := (l.cleanup now).usage_history ++ [(now, n)] } := by
  by_cases hc : (((l.cleanup now).usage_history.map Prod.snd).sum + n
      ≤ (l.cleanup now).limit)
  · simp [TokenRateLimiter.acquire, hc]
  · simp [TokenRateLimiter.acquire, hc] at h

/-- Releasing exactly what a successful token `acquire` admitted restores the
reported usage: the `(now, n)` and `(now, -n)` entries carry the same
timestamp, so the window keeps or drops them together. -/
theorem TokenRateLimiter.token_usage_release_acquire (l : TokenRateLimiter)
    (now : Int) (n : Int) (h : (l.acquire now n).1 = true) :
    ((l.acquire now n).2.release now n).get_current_usage now
      = l.get_current_usage now := by
  rw [TokenRateLimiter.token_acquire_snd_of_true l now n h,
    ← TokenRateLimiter.token_usage_cleanup l now]
  simp only [TokenRateLimiter.release, TokenRateLimiter.get_current_usage,
    TokenRateLimiter.cleanup]
  congr 1
  rw [List.append_assoc, List.singleton_append, List.filter_append,
    List.map_append, List.sum_append]
  have hpair : ((([((now : Int), n), (now, -n)]).filter
      (fun e => decide (now - e.1 < l.time_period))).map Prod.snd).sum = 0 := by
    by_cases hp : 0 < l.time_period
    · simp [List.filter, hp]
    · simp [List.filter, hp]
  rw [hpair, add_zero]

/-- Cleanup never changes the reported usage of a request limiter. -/
theorem RequestRateLimiter.request_usage_cleanup (l : RequestRateLimiter)
    (now : Int) :
    (l.cleanup now).get_current_usage now = l.get_current_usage now := by
  simp [RequestRateLimiter.cleanup, RequestRateLimiter.get_current_usage,
    List.filter_filter, Bool.and_self]

/-- A refused request `acquire` leaves the state cleaned but nothing else. -/
theorem RequestRateLimiter.request_acquire_snd_of_false (l : RequestRateLimiter) (now : Int)
    (n : Int) (h : (l.acquire now n).1 = false) :
    (l.acquire now n).2 = l.cleanup now := by
  by_cases hc : ((((l.cleanup now).timestamps.length : Int) + n ≤ (l.cleanup now).limit))
  · simp [RequestRateLimiter.acquire, hc] at h
  · simp [RequestRateLimiter.acquire, hc]

/-- A successful request `acquire` appends `n` copies of `now` to the cleaned
timestamp list. -/
theorem RequestRateLimiter.request_acquire_snd_of_true (l : RequestRateLimiter) (now : Int)
    (n : Int) (h : (l.acquire now n).1 = true) :
    (l.acquire now n).2 =
      { l.cleanup now with
        timestamps := (l.cleanup now).timestamps ++ List.replicate n.toNat now } := by
  by_cases hc : ((((l.cleanup now).timestamps.length : Int) + n ≤ (l.cleanup now).limit))
  · simp [RequestRateLimiter.acquire, hc]
  · simp [RequestRateLimiter.acquire, hc] at h

/-- Releasing exactly what a successful request `acquire` admitted pops the
timestamps it appended and restores the reported usage. -/
theorem RequestRateLimiter.request_usage_release_acquire (l : RequestRateLimiter)
    (now : Int) (n : Int) (h : (l.acquire now n).1 = true) :
    ((l.acquire now n).2.release n).get_current_usage now
      = l.get_current_usage now := by
  rw [RequestRateLimiter.request_acquire_snd_of_true l now n h]
  have hclean := RequestRateLimiter.request_usage_cleanup l now
  rw [← hclean]
  simp only [RequestRateLimiter.release, RequestRateLimiter.get_current_usage,
    RequestRateLimiter.cleanup] at *
  congr 1
  have hmin : min n.toNat
      (((l.timestamps.filter
        (fun t => decide (now - t < l.time_period))) ++
        List.replicate n.toNat now).length) = n.toNat := by
    simp [List.length_append, List.length_replicate]
  rw [hmin]
  simp only [List.length_append, List.length_replicate, Nat.add_sub_cancel]
  rw [List.take_left]

/-- Concurrent `acquire` then `release` of the same amount restores the
semaphore counter exactly. -/
theorem ConcurrentRateLimiter.release_acquire (l : ConcurrentRateLimiter) (n : Int)
    (h : (l.acquire n).1 = true) :
    (l.acquire n).2.release n = l := by
  by_cases hc : l.value < n
  · simp [ConcurrentRateLimiter.acquire, hc] at h
  · simp [ConcurrentRateLimiter.acquire, hc, ConcurrentRateLimiter.release]

/-- A refused concurrent `acquire` leaves the state untouched. -/
theorem ConcurrentRateLimiter.concurrent_acquire_snd_of_false (l : ConcurrentRateLimiter)
    (n : Int) (h : (l.acquire n).1 = false) :
    (l.acquire n).2 = l := by
  by_cases hc : l.value < n
  · simp [ConcurrentRateLimiter.acquire, hc]
  · simp [ConcurrentRateLimiter.acquire, hc] at h

/-- A refused `acquire` never changes the reported usage of any limiter
class (only expired entries are dropped). -/
theorem Limiter.limiter_usage_acquire_of_false (l : Limiter) (now : Int)
    (n : Int) (h : (l.acquire now n).1 = false) :
    (l.acquire now n).2.get_current_usage now = l.get_current_usage now := by
  cases l with
  | request ty s =>
    simp only [Limiter.acquire] at h
    simp only [Limiter.acquire, Limiter.get_current_usage,
      RequestRateLimiter.request_acquire_snd_of_false s now n h]
    exact RequestRateLimiter.request_usage_cleanup s now
  | token ty s =>
    simp only [Limiter.acquire] at h
    simp only [Limiter.acquire, Limiter.get_current_usage,
      TokenRateLimiter.token_acquire_snd_of_false s now n h]
    exact TokenRateLimiter.token_usage_cleanup s now
  | concurrent ty s =>
    simp only [Limiter.acquire] at h
    simp only [Limiter.acquire, Limiter.get_current_usage,
      ConcurrentRateLimiter.concurrent_acquire_snd_of_false s n h]

/-- A successful `acquire` followed by a `release` of the same cost restores
the reported usage of any limiter class. -/
theorem Limiter.limiter_usage_release_acquire (l : Limiter) (now : Int)
    (n : Int) (h : (l.acquire now n).1 = true) :
    ((l.acquire now n).2.release now n).get_current_usage now
      = l.get_current_usage now := by
  cases l with
  | request ty s =>
    simp only [Limiter.acquire] at h
    simp only [Limiter.acquire, Limiter.release, Limiter.get_current_usage]
    exact RequestRateLimiter.request_usage_release_acquire s now n h
  | token ty s =>
    simp only [Limiter.acquire] at h
    simp only [Limiter.acquire, Limiter.release, Limiter.get_current_usage]
    exact TokenRateLimiter.token_usage_release_acquire s now n h
  | concurrent ty s =>
    simp only [Limiter.acquire] at h
    simp only [Limiter.acquire, Limiter.release, Limiter.get_current_usage,
      ConcurrentRateLimiter.release_acquire s n h]

/-- `_get_tokens_for_limiter` reads only the estimate fields of the request,
so it is unchanged by status / error / actual-token updates. -/
theorem RateLimiterChain.get_tokens_for_limiter_congr (l : Limiter)
    (req req2 : QueueRequest P)
    (h1 : req2.estimated_input_tokens = req.estimated_input_tokens)
    (h2 : req2.estimated_output_tokens = req.estimated_output_tokens) :
    RateLimiterChain.get_tokens_for_limiter l req2
      = RateLimiterChain.get_tokens_for_limiter l req := by
  unfold RateLimiterChain.get_tokens_for_limiter
  rcases l.rate_limiter_type with - | t
  · rfl
  · cases t <;> simp [h1, h2]

/-- `release_all` reads only the estimate fields of the request. -/
theorem RateLimiterChain.release_all_congr (now : Int) (chain : List Limiter)
    (req req2 : QueueRequest P)
    (h1 : req2.estimated_input_tokens = req.estimated_input_tokens)
    (h2 : req2.estimated_output_tokens = req.estimated_output_tokens) :
    RateLimiterChain.release_all now req2 chain
      = RateLimiterChain.release_all now req chain := by
  unfold RateLimiterChain.release_all
  refine List.map_congr_left (fun l _ => ?_)
  rw [RateLimiterChain.get_tokens_for_limiter_congr l req req2 h1 h2]

/-! ### C4: rollback law of `acquire_all` -/

/-- C4: for every request and every chain of limiters, if `acquire_all`
returns refusal then the usage of every limiter in the chain is exactly
what it was immediately before the call: the chain acquires limiters in
list order with each limiter's computed cost, and on the first refusal
releases every limiter already acquired with the same cost it was acquired
with, so each limiter's reported usage is restored. -/
theorem acquire_all_rollback_exact (now : Int) (req : QueueRequest P)
    (chain out : List Limiter)
    (h : RateLimiterChain.acquire_all now req chain = (false, out)) :
    List.Forall₂ (fun a b => b.get_current_usage now = a.get_current_usage now)
      chain out := by
  induction chain generalizing out with
  | nil => simp [RateLimiterChain.acquire_all] at h
  | cons l rest ih =>
    by_cases hok :
        (l.acquire now (RateLimiterChain.get_tokens_for_limiter l req)).1 = true
    · rcases hrest : RateLimiterChain.acquire_all now req rest with ⟨b, rest1⟩
      cases b
      · simp only [RateLimiterChain.acquire_all, hok, if_true, hrest] at h
        rw [Prod.mk.injEq] at h
        rcases h with ⟨-, hout⟩
        subst hout
        exact List.Forall₂.cons
          (Limiter.limiter_usage_release_acquire l now _ hok)
          (ih rest1 hrest)
      · simp [RateLimiterChain.acquire_all, hok, hrest] at h
    · rw [Bool.not_eq_true] at hok
      simp only [RateLimiterChain.acquire_all, hok, Bool.false_eq_true, if_false] at h
      rw [Prod.mk.injEq] at h
      rcases h with ⟨-, hout⟩
      subst hout
      exact List.Forall₂.cons
        (Limiter.limiter_usage_acquire_of_false l now _ hok)
        (List.forall₂_same.2 (fun x _ => rfl))

/-- Witness for C4 at scenario 3 of the spec: `[RPM 10/60 at usage 1,
TPM 60/60 at usage 50]` refuses a request estimating 50 tokens, and both
usages are exactly what they were. -/
theorem acquire_all_rollback_exact_witness :
    List.Forall₂
      (fun a b => b.get_current_usage (0 : Int) = a.get_current_usage (0 : Int))
      chainRpmTpm chainRpmTpm :=
  acquire_all_rollback_exact 0 reqEst50 chainRpmTpm chainRpmTpm (by decide)

/-! ### C9: all-or-nothing concurrent acquire -/

/-- C9: `ConcurrentRateLimiter.acquire n` (for `n ≥ 0`) is all-or-nothing:
with at least `n` permits available it returns `True` and decrements the
available count by exactly `n` (leaving the capacity unchanged); otherwise
it returns `False` and leaves the state untouched.  It is a total function
of the state, so it never blocks and never partially decrements. -/
theorem concurrent_acquire_all_or_nothing (l : ConcurrentRateLimiter) (n : Int)
    (hn : 0 ≤ n) :
    (n ≤ l.value →
      (l.acquire n).1 = true ∧ (l.acquire n).2.value = l.value - n ∧
        (l.acquire n).2.limit = l.limit) ∧
    (l.value < n → (l.acquire n).1 = false ∧ (l.acquire n).2 = l) := by
  constructor
  · intro hle
    have hlt : ¬ l.value < n := not_lt.mpr hle
    refine ⟨by simp [ConcurrentRateLimiter.acquire, hlt], ?_, by simp [ConcurrentRateLimiter.acquire, hlt]⟩
    simp only [ConcurrentRateLimiter.acquire, hlt, if_false]
    have hmax : max n 0 = n := max_eq_left hn
    simp [hmax]
  · intro hlt
    exact ⟨by simp [ConcurrentRateLimiter.acquire, hlt], by simp [ConcurrentRateLimiter.acquire, hlt]⟩

/-- Witness for C9: with 2 permits free, acquiring 1 succeeds and leaves 1;
acquiring 5 fails and leaves the state untouched. -/
theorem concurrent_acquire_all_or_nothing_witness :
    ((ConcurrentRateLimiter.acquire { limit := 2, value := 2 } 1).1 = true ∧
      (ConcurrentRateLimiter.acquire { limit := 2, value := 2 } 1).2.value = 2 - 1 ∧
      (ConcurrentRateLimiter.acquire { limit := 2, value := 2 } 1).2.limit = 2) ∧
    ((ConcurrentRateLimiter.acquire { limit := 2, value := 2 } 5).1 = false ∧
      (ConcurrentRateLimiter.acquire { limit := 2, value := 2 } 5).2
        = { limit := 2, value := 2 }) :=
  ⟨(concurrent_acquire_all_or_nothing { limit := 2, value := 2 } 1 (by decide)).1
      (by decide),
   (concurrent_acquire_all_or_nothing { limit := 2, value := 2 } 5 (by decide)).2
      (by decide)⟩

/-! ### C3: the admission check of `TokenRateLimiter.acquire` is unclamped -/

/-- C3 counterexample: with limit 100 and a ledger whose signed sum is −50,
`acquire 120` is ADMITTED (the code compares the raw signed sum, −50 + 120 =
70 ≤ 100), although the claimed check `max(0, current) + n ≤ L` gives
120 > 100 and would refuse; so an acquire of `n > L` is admitted when the
signed sum is negative. -/
theorem token_acquire_clamp_cex :
    (TokenRateLimiter.acquire
        { limit := 100, time_period := 60, usage_history := [(0, -50)] } 0 120).1
      = true ∧
    ¬ (max 0 (-50 : Int) + 120 ≤ 100) ∧
    (TokenRateLimiter.acquire
        { limit := 100, time_period := 60, usage_history := [(0, -50)] } 0 120).2
      = { limit := 100, time_period := 60, usage_history := [(0, -50), (0, 120)] } := by
  refine ⟨by decide, by decide, by decide⟩

/-- C3 amended: `acquire n` first expires entries older than `now − P`,
computes `current` as the UNCLAMPED signed sum of the remaining entries,
admits exactly when `current + n ≤ L` (no `max(0, ·)` is applied in the
capacity check — the clamp exists only in `get_current_usage`), appends
`(now, n)` on admission, and leaves the expired-filtered ledger otherwise
unchanged on refusal.  Consequently, when the signed sum is negative an
acquire of `n > L` can be admitted. -/
theorem token_acquire_characterisation (l : TokenRateLimiter) (now n : Int) :
    (l.acquire now n).1
      = decide ((((l.usage_history.filter
          (fun e => decide (now - e.1 < l.time_period))).map Prod.snd).sum + n
            ≤ l.limit)) ∧
    (l.acquire now n).2.limit = l.limit ∧
    (l.acquire now n).2.time_period = l.time_period ∧
    (l.acquire now n).2.usage_history
      = (if (((l.usage_history.filter
            (fun e => decide (now - e.1 < l.time_period))).map Prod.snd).sum + n
              ≤ l.limit) then
          (l.usage_history.filter (fun e => decide (now - e.1 < l.time_period)))
            ++ [(now, n)]
         else
          l.usage_history.filter (fun e => decide (now - e.1 < l.time_period))) := by
  by_cases hc : (((l.usage_history.filter
      (fun e => decide (now - e.1 < l.time_period))).map Prod.snd).sum + n ≤ l.limit)
  · refine ⟨?_, ?_, ?_, ?_⟩ <;>
      simp [TokenRateLimiter.acquire, TokenRateLimiter.cleanup, hc]
  · refine ⟨?_, ?_, ?_, ?_⟩ <;>
      simp [TokenRateLimiter.acquire, TokenRateLimiter.cleanup, hc]

/-! ### C1: reconciliation overage is recorded only when capacity remains -/

/-- C1 counterexample: TPM limiter at limit 100 with 80 tokens drawn;
reconciling `est = 80` against `actual = 200` (est < actual) leaves the
ledger UNCHANGED — the overage entry of 120 is not appended, because the
code records it through `acquire`, which refuses at 80 + 120 > 100 — so the
usage stays 80 instead of reflecting the full actual 200. -/
theorem overage_not_unconditional_cex :
    (80 : Int) < 200 ∧
    RateLimiterChain.update_token_usage [.token (some .tpm) tpm80] 0 reqEst80 200 0
      = [.token (some .tpm) tpm80] ∧
    Limiter.get_current_usage (.token (some .tpm) tpm80) 0 = 80 := by
  refine ⟨by decide, by decide, by decide⟩

/-- C1 amended: when actual usage exceeds the estimate, the overage
`actual − est` is acquired CONDITIONALLY: `update_token_usage` hands it to
`TokenRateLimiter.acquire`, so the positive entry is appended only when the
window still has capacity for it, and otherwise the (expired-filtered)
ledger is unchanged and usage continues to reflect the estimate.  In the
in-capacity case of spec scenario 5 (est 80, actual 90, limit 100) the
usage does become 90 and an immediately following acquire of 20 is refused. -/
theorem update_token_usage_overage_conditional (s : TokenRateLimiter)
    (t : RateLimiterType) (now : Int) (req : QueueRequest P) (aIn aOut : Int)
    (ht : t = .tpm ∨ t = .tpd ∨ t = .itpm ∨ t = .otpm)
    (hover :
      (match t with
       | .itpm => req.estimated_input_tokens.getD 0
       | .otpm => req.estimated_output_tokens.getD 0
       | _ => req.estimated_input_tokens.getD 0 + req.estimated_output_tokens.getD 0)
      <
      (match t with
       | .itpm => aIn
       | .otpm => aOut
       | _ => aIn + aOut)) :
    RateLimiterChain.update_token_usage [.token (some t) s] now req aIn aOut
      = [.token (some t)
          (s.acquire now
            ((match t with
              | .itpm => aIn
              | .otpm => aOut
              | _ => aIn + aOut) -
             (match t with
              | .itpm => req.estimated_input_tokens.getD 0
              | .otpm => req.estimated_output_tokens.getD 0
              | _ => req.estimated_input_tokens.getD 0
                + req.estimated_output_tokens.getD 0))).2] ∧
    RateLimiterChain.update_token_usage [.token (some .tpm) tpm80] 0 reqEst80 90 0
      = [.token (some .tpm)
          { limit := 100, time_period := 60, usage_history := [(0, 80), (0, 10)] }] ∧
    Limiter.get_current_usage
      (.token (some .tpm)
        { limit := 100, time_period := 60, usage_history := [(0, 80), (0, 10)] }) 0
      = 90 ∧
    (Limiter.acquire
      (.token (some .tpm)
        { limit := 100, time_period := 60, usage_history := [(0, 80), (0, 10)] })
      0 20).1 = false := by
  refine ⟨?_, by decide, by decide, by decide⟩
  rcases ht with rfl | rfl | rfl | rfl <;> dsimp only at hover
  · have h1 : ¬ (aIn + aOut < req.estimated_input_tokens.getD 0
        + req.estimated_output_tokens.getD 0) := by omega
    simp [RateLimiterChain.update_token_usage, h1, hover]
  · have h1 : ¬ (aIn + aOut < req.estimated_input_tokens.getD 0
        + req.estimated_output_tokens.getD 0) := by omega
    simp [RateLimiterChain.update_token_usage, h1, hover]
  · have h1 : ¬ (aIn < req.estimated_input_tokens.getD 0) := by omega
    simp [RateLimiterChain.update_token_usage, h1, hover]
  · have h1 : ¬ (aOut < req.estimated_output_tokens.getD 0) := by omega
    simp [RateLimiterChain.update_token_usage, h1, hover]

/-- Witness for the amended C1 at spec scenario 5: est 80, actual 90, the
overage 10 fits, so the entry is appended through `acquire`. -/
theorem update_token_usage_overage_conditional_witness :
    RateLimiterChain.update_token_usage [.token (some .tpm) tpm80] 0 reqEst80 90 0
      = [.token (some .tpm) (tpm80.acquire 0 (90 - 80)).2] := by
  have h := update_token_usage_overage_conditional tpm80 .tpm 0 reqEst80 90 0
    (Or.inl rfl) (by decide)
  simpa using h.1

/-! ### C2: reconciliation is not idempotent -/

/-- C2 (code bug): `update_token_usage` recomputes and applies the delta
`est − actual` on every call.  With TPM limit 100, `reqEst80` admitted for
80 tokens, one reconciliation against actual 50 leaves usage 50 (correct),
but a second identical reconciliation releases another 30 and leaves usage
20 — the limiter state differs from the single-call state, so repeated
identical reports are not idempotent. -/
theorem update_token_usage_not_idempotent :
    Queue.get_rate_limiter_usage
        (Queue.update_token_usage stateTpm80 0 "r1" 50 0).chain 0 = 50 ∧
    Queue.get_rate_limiter_usage
        (Queue.update_token_usage
          (Queue.update_token_usage stateTpm80 0 "r1" 50 0) 0 "r1" 50 0).chain 0
      = 20 ∧
    (Queue.update_token_usage
        (Queue.update_token_usage stateTpm80 0 "r1" 50 0) 0 "r1" 50 0).chain
      ≠ (Queue.update_token_usage stateTpm80 0 "r1" 50 0).chain := by
  refine ⟨by decide, by decide, by decide⟩

/-! ### C6: `release_all` touches only concurrency limiters -/

/-- On a factory-well-formed chain, `release_all` leaves every limiter that
is not of kind CONCURRENT in exactly its previous state, and releases each
CONCURRENT-kind limiter with cost 1. -/
theorem release_all_pointwise (now : Int) (req : QueueRequest P) :
    ∀ (chain : List Limiter), (∀ l ∈ chain, l.wf) →
      List.Forall₂ (fun a b =>
        (a.rate_limiter_type ≠ some .concurrent → b = a) ∧
        (a.rate_limiter_type = some .concurrent → b = a.release now 1))
        chain (RateLimiterChain.release_all now req chain)
  | [], _ => List.Forall₂.nil
  | l :: rest, hwf => by
    have hl : l.wf := hwf l (List.mem_cons_self l rest)
    refine List.Forall₂.cons ?_
      (release_all_pointwise now req rest
        (fun x hx => hwf x (List.mem_cons_of_mem l hx)))
    cases l with
    | request ty s =>
      refine ⟨fun _ => rfl, fun hc => ?_⟩
      rcases hl with h | h <;> subst h <;> simp [Limiter.rate_limiter_type] at hc
    | token ty s =>
      refine ⟨fun _ => rfl, fun hc => ?_⟩
      rcases hl with h | h | h | h <;> subst h <;>
        simp [Limiter.rate_limiter_type] at hc
    | concurrent ty s =>
      have hty : ty = some .concurrent := hl
      subst hty
      exact ⟨fun hne => absurd rfl hne, fun _ => rfl⟩

/-- C6: for every request, `release_all` releases only limiters of kind
CONCURRENT (each with cost 1, the computed cost of that kind) and leaves the
state of every rolling-window limiter unchanged; and the request the worker
passes to `release_all` after the processor ran gives the same result
whether the processor succeeded or failed, since only status and error
differ — so rolling-window admissions are never refunded on failure. -/
theorem release_all_concurrent_only (now : Int) (req : QueueRequest P)
    (chain : List Limiter) (hwf : ∀ l ∈ chain, l.wf) :
    List.Forall₂ (fun a b =>
        (a.rate_limiter_type ≠ some .concurrent → b = a) ∧
        (a.rate_limiter_type = some .concurrent → b = a.release now 1))
      chain (RateLimiterChain.release_all now req chain) ∧
    ∀ (o : Queue.Outcome T),
      RateLimiterChain.release_all now
          ((Queue.run_processor { req with status := .processing } o).1) chain
        = RateLimiterChain.release_all now req chain := by
  refine ⟨release_all_pointwise now req chain hwf, fun o => ?_⟩
  cases o <;>
    exact RateLimiterChain.release_all_congr now chain req _ rfl rfl

/-- Witness for C6 on a chain holding one concurrency limiter (one permit
taken) and one TPM limiter. -/
theorem release_all_concurrent_only_witness :
    List.Forall₂ (fun a b =>
        (a.rate_limiter_type ≠ some .concurrent → b = a) ∧
        (a.rate_limiter_type = some .concurrent → b = a.release 0 1))
      chainCT (RateLimiterChain.release_all 0 reqEst80 chainCT) ∧
    RateLimiterChain.release_all 0
        ((Queue.run_processor { reqEst80 with status := .processing }
          (Queue.Outcome.error "boom" : Queue.Outcome Unit)).1) chainCT
      = RateLimiterChain.release_all 0 reqEst80 chainCT := by
  have h := release_all_concurrent_only (T := Unit) 0 reqEst80 chainCT (by decide)
  exact ⟨h.1, h.2 (.error "boom")⟩

/-! ### C7: processor failures are contained -/

/-- When `process_one` succeeds on an item, the worker loop on `item :: rest`
records that item's response and continues into `rest` from the updated
state. -/
theorem Queue.process_all_cons_of_some (now : Int) (it : Queue.WorkerItem P T)
    (rest : List (Queue.WorkerItem P T)) (s s1 : QueueState P T)
    (resp : QueueResponse T) (res : Option (QueueResponse T))
    (h : Queue.process_one s now it = some (s1, resp, res)) :
    Queue.process_all now (it :: rest) s
      = ((Queue.process_all now rest s1).1,
          (resp, res) :: (Queue.process_all now rest s1).2) := by
  simp [Queue.process_all, h]

/-- C7: for every dequeued request whose processor raises, the worker sets
status FAILED, records the exception message as the error, sets a null
result, still releases the concurrency permits (`release_all` runs in the
`finally`), resolves the non-cancelled future with that FAILED response
instead of re-raising, and the loop continues with the subsequent items. -/
theorem worker_contains_processor_failure (s : QueueState P T) (now : Int)
    (it : Queue.WorkerItem P T) (msg : String) (chainA : List Limiter)
    (houtcome : it.outcome = .error msg)
    (hadm : RateLimiterChain.wait_for_all_now now it.request s.chain = some chainA) :
    ∃ s1 resp res,
      Queue.process_one s now it = some (s1, resp, res) ∧
      resp.status = .failed ∧
      resp.error = some msg ∧
      resp.result = none ∧
      s1.chain = RateLimiterChain.release_all now it.request chainA ∧
      (it.cancelled = false → res = some resp) ∧
      ∀ rest : List (Queue.WorkerItem P T),
        Queue.process_all now (it :: rest) s
          = ((Queue.process_all now rest s1).1,
              (resp, res) :: (Queue.process_all now rest s1).2) := by
  unfold Queue.process_one
  rw [hadm, Option.map_some', houtcome]
  refine ⟨_, _, _, rfl, rfl, rfl, rfl, ?_, ?_, ?_⟩
  · exact RateLimiterChain.release_all_congr now chainA it.request _ rfl rfl
  · intro hc
    simp [hc]
  · intro rest
    refine Queue.process_all_cons_of_some now it rest s _ _ _ ?_
    unfold Queue.process_one
    rw [hadm, Option.map_some', houtcome]

/-- Witness for C7: the `boom` item on the fresh concurrency queue is
processed to a FAILED response with error `boom` and null result, the
permit is released, and the future is resolved with that response. -/
theorem worker_contains_processor_failure_witness :
    Queue.process_one stateConc 0 itemBoom
      = some (stateAfterBoom, respBoom, some respBoom) ∧
    respBoom.status = .failed ∧
    respBoom.error = some "boom" ∧
    respBoom.result = none ∧
    stateAfterBoom.chain
      = RateLimiterChain.release_all 0 reqEst80
          [Limiter.concurrent (some .concurrent) { limit := 2, value := 1 }] := by
  obtain ⟨s1, resp, res, h1, h2, h3, h4, h5, h6, h7⟩ :=
    worker_contains_processor_failure stateConc 0 itemBoom "boom"
      [Limiter.concurrent (some .concurrent) { limit := 2, value := 1 }]
      rfl (by decide)
  have heval : Queue.process_one stateConc 0 itemBoom
      = some (stateAfterBoom, respBoom, some respBoom) := by decide
  have heq := Option.some.inj (h1.symm.trans heval)
  have hs1 : s1 = stateAfterBoom := congrArg Prod.fst heq
  have hresp : resp = respBoom := congrArg (fun x => x.2.1) heq
  exact ⟨heval, hresp ▸ h2, hresp ▸ h3, hresp ▸ h4, hs1 ▸ h5⟩

/-! ### C8: enqueue semantics -/

/-- For a worker item whose future is not cancelled, the value the future is
resolved with is exactly the response the worker built. -/
theorem Queue.process_one_resolved_of_not_cancelled (s : QueueState P T)
    (now : Int) (req : QueueRequest P) (o : Queue.Outcome T) (pt : Int) :
    (Queue.process_one s now
        { request := req, outcome := o, cancelled := false, proc_time := pt }).bind
      (fun out => out.2.2)
      = (Queue.process_one s now
          { request := req, outcome := o, cancelled := false, proc_time := pt }).map
        (fun out => out.2.1) := by
  unfold Queue.process_one
  rcases hw : RateLimiterChain.wait_for_all_now now req s.chain with - | chainA
  · simp [hw]
  · simp [hw]

/-- C8: `enqueue` inserts the request into the active table and the FIFO;
with `wait_for_completion = false` it returns immediately a PENDING
response carrying the request id with `result`, `error` and
`processing_time` unset; with `wait_for_completion = true` it awaits the
future, and the value the caller receives is the terminal response the
worker produces for the item (`none` while the worker is still blocked on
admission). -/
theorem enqueue_pending_or_terminal (s : QueueState P T) (req : QueueRequest P) :
    (Queue.enqueue s req).1.requests = dict_set s.requests req.id req ∧
    (Queue.enqueue s req).1.fifo = s.fifo ++ [req] ∧
    (req.wait_for_completion = false →
      (Queue.enqueue s req).2 = .immediate (Queue.pending_response req) ∧
      (Queue.pending_response req : QueueResponse T).request_id = req.id ∧
      (Queue.pending_response req : QueueResponse T).status = .pending ∧
      (Queue.pending_response req : QueueResponse T).result = none ∧
      (Queue.pending_response req : QueueResponse T).error = none ∧
      (Queue.pending_response req : QueueResponse T).processing_time = none) ∧
    (req.wait_for_completion = true →
      (Queue.enqueue s req).2 = (.awaited : Queue.EnqueueReturn T) ∧
      ∀ (o : Queue.Outcome T) (now pt : Int),
        submit_and_run s req o now pt
          = (Queue.process_one (Queue.enqueue s req).1 now
              { request := req, outcome := o, cancelled := false,
                proc_time := pt }).map (fun out => out.2.1)) := by
  refine ⟨?_, ?_, fun hw => ?_, fun hw => ?_⟩
  · by_cases hw : req.wait_for_completion <;> simp [Queue.enqueue, hw]
  · by_cases hw : req.wait_for_completion <;> simp [Queue.enqueue, hw]
  · exact ⟨by simp [Queue.enqueue, hw], rfl, rfl, rfl, rfl, rfl⟩
  · have henq : (Queue.enqueue s req).2 = (.awaited : Queue.EnqueueReturn T) := by
      simp [Queue.enqueue, hw]
    refine ⟨henq, fun o now pt => ?_⟩
    simp only [submit_and_run]
    rw [henq]
    exact Queue.process_one_resolved_of_not_cancelled (Queue.enqueue s req).1 now req o pt

/-- Witness for C8: a fire-and-forget request gets the immediate PENDING
response; a waiting request's caller receives the worker's terminal
response. -/
theorem enqueue_pending_or_terminal_witness :
    (Queue.enqueue stateConc reqNoWait).2
      = .immediate (Queue.pending_response reqNoWait) ∧
    submit_and_run stateConc reqEst50 (.ok ()) 0 1
      = (Queue.process_one (Queue.enqueue stateConc reqEst50).1 0
          { request := reqEst50, outcome := .ok (), cancelled := false,
            proc_time := 1 }).map (fun out => out.2.1) :=
  ⟨((enqueue_pending_or_terminal stateConc reqNoWait).2.2.1 rfl).1,
   ((enqueue_pending_or_terminal stateConc reqEst50).2.2.2 rfl).2 (.ok ()) 0 1⟩

/-! ### C5: registration validation -/

/-- C5 counterexample: the configuration `cfgLegacy` has an EMPTY limiter
list but a legacy `rate_limit = 10`; it passes validation, and
`register_queue` builds the chain only from the v2 list, so the model is
registered with an empty limiter chain instead of failing. -/
theorem register_empty_chain_cex :
    QueueManager.register_model ([] : List (String × QueueState Unit Unit)) cfgLegacy
      = .ok [("m", Queue.new [])] := rfl

/-- C5 amended: constructing a `ModelConfig` fails when the limiter list is
empty AND the legacy `rate_limit` is also absent, and when any limiter
config has a non-positive limit or non-positive time period; but when a
positive legacy `rate_limit` is present an empty limiter list is accepted,
and `register_queue` then registers the model with an EMPTY limiter chain. -/
theorem register_model_validation (queues : List (String × QueueState P T))
    (cfg : ModelConfig) :
    (cfg.rate_limiters = [] → cfg.rate_limit = none →
      exceptOk (QueueManager.register_model queues cfg) = false) ∧
    (∀ lc ∈ cfg.rate_limiters,
      (lc.limit ≤ 0 ∨ ∃ tp, lc.time_period = some tp ∧ tp ≤ 0) →
      exceptOk (QueueManager.register_model queues cfg) = false) ∧
    (cfg.rate_limiters = [] → ∀ r, cfg.rate_limit = some r → 0 < r →
      0 < cfg.time_period →
      queues.any (fun kv => kv.1 == cfg.model_id) = false →
      QueueManager.register_model queues cfg
        = .ok (queues ++ [(cfg.model_id, Queue.new [])])) := by
  refine ⟨fun h1 h2 => ?_, fun lc hmem hbad => ?_, fun h1 r hr hrpos htp hany => ?_⟩
  · by_cases hf : cfg.field_valid = true <;>
      simp [QueueManager.register_model, ModelConfig.construct,
        ModelConfig.validate_config, h1, h2, hf, exceptOk, Except.bind]
  · have hlc : lc.field_valid = false := by
      rcases hbad with hb | ⟨tp, htp, hle⟩
      · simp [RateLimiterConfig.field_valid, show ¬ (0 < lc.limit) by omega]
      · simp [RateLimiterConfig.field_valid, htp, show ¬ (0 < tp) by omega]
    have hall : cfg.rate_limiters.all RateLimiterConfig.field_valid = false :=
      List.all_eq_false.mpr ⟨lc, hmem, by simp [hlc]⟩
    have hf : cfg.field_valid = false := by
      simp [ModelConfig.field_valid, hall]
    simp [QueueManager.register_model, ModelConfig.construct, hf, exceptOk,
      Except.bind]
  · have hf : cfg.field_valid = true := by
      simp [ModelConfig.field_valid, h1, hr, hrpos, htp]
    simp [QueueManager.register_model, ModelConfig.construct, hf,
      ModelConfig.validate_config, h1, hr, QueueManager.register_queue, hany,
      create_chain, Except.bind]

/-- Witness for the amended C5: both invalid configurations are rejected,
and the legacy configuration registers an empty chain. -/
theorem register_model_validation_witness :
    exceptOk (QueueManager.register_model
        ([] : List (String × QueueState Unit Unit)) cfgEmptyNone) = false ∧
    exceptOk (QueueManager.register_model
        ([] : List (String × QueueState Unit Unit)) cfgBadLimit) = false ∧
    QueueManager.register_model ([] : List (String × QueueState Unit Unit)) cfgLegacy
      = .ok ([] ++ [("m", Queue.new [])]) :=
  ⟨(register_model_validation [] cfgEmptyNone).1 rfl rfl,
   (register_model_validation [] cfgBadLimit).2.1
      { type := .rpm, limit := 0, time_period := none } (by decide)
      (Or.inl (by decide)),
   (register_model_validation [] cfgLegacy).2.2 rfl 10 rfl (by decide) (by decide)
      rfl⟩

/-! ### C10: the scalar usage in queue info is the first limiter's -/

/-- C10: for a registered model, `get_queue_info` reports as the scalar
`rate_limiter_usage` exactly `Queue.get_rate_limiter_usage`, which is the
current usage of the FIRST limiter of the chain and `0` for an empty chain
— not an aggregate — while the per-limiter usages appear in the
`rate_limiters` detail list. -/
theorem queue_info_scalar_is_first_limiter (queues : List (String × QueueState P T))
    (model_id : String) (now : Int) (q : QueueState P T)
    (hq : dict_get queues model_id = some q) :
    QueueManager.get_queue_info queues model_id now
      = .ok { model_id := model_id, queue_size := q.fifo.length,
              rate_limiter_usage := Queue.get_rate_limiter_usage q.chain now,
              rate_limiters := q.chain.map (QueueManager.limiter_info now) } ∧
    (q.chain = [] → Queue.get_rate_limiter_usage q.chain now = 0) ∧
    (∀ l ls, q.chain = l :: ls →
      Queue.get_rate_limiter_usage q.chain now = l.get_current_usage now) ∧
    (q.chain.map (QueueManager.limiter_info now)).map (fun r => r.usage)
      = q.chain.map (fun l => l.get_current_usage now) := by
  refine ⟨?_, fun h => ?_, fun l ls h => ?_, ?_⟩
  · unfold QueueManager.get_queue_info
    rw [hq]
  · rw [h]
    rfl
  · rw [h]
    rfl
  · rw [List.map_map]
    rfl

/-- Witness for C10 on a one-model registry whose chain is the single TPM
limiter `tpm80`. -/
theorem queue_info_scalar_is_first_limiter_witness :
    QueueManager.get_queue_info [("m", stateTpm80)] "m" 0
      = .ok { model_id := "m", queue_size := stateTpm80.fifo.length,
              rate_limiter_usage := Queue.get_rate_limiter_usage stateTpm80.chain 0,
              rate_limiters := stateTpm80.chain.map (QueueManager.limiter_info 0) } :=
  (queue_info_scalar_is_first_limiter [("m", stateTpm80)] "m" 0 stateTpm80 rfl).1

end LlmQueue

